import Mathlib

/-!
Verification of the session relay and pseudo-terminal bridging subsystem of
ssh-opencode.  The definitions below are shallow embeddings of the Go source:
bytes are `Nat` values below 256, Go `int` values are `Int`, Go `uint16`
conversion is arithmetic modulo 2^16, and the concurrent handler loops are
modelled as sequential functions over the lists of events they consume.
-/

namespace SSHOpenCode

set_option maxRecDepth 8192

/-! ## Base64 codec (Go `encoding/base64` StdEncoding)

`base64.StdEncoding.EncodeToString` / `DecodeString` are used by the relay
(`internal/session/handler.go`) and the bridge (pty-bridge `main.go`) to make
binary terminal bytes text-safe inside `data` messages. -/

/-- Character `n` (0 ≤ n < 64) of the standard base64 alphabet
`A-Z a-z 0-9 + /`. -/
def encChar (n : Nat) : Char :=
  if n < 26 then Char.ofNat (65 + n)
  else if n < 52 then Char.ofNat (97 + (n - 26))
  else if n < 62 then Char.ofNat (48 + (n - 52))
  else if n = 62 then '+'
  else '/'

/-- Inverse of the standard base64 alphabet: the 6-bit value of a base64
character, `none` for a character outside the alphabet (including `=`). -/
def decCharVal (c : Char) : Option Nat :=
  let v := c.toNat
  if 65 ≤ v ∧ v ≤ 90 then some (v - 65)
  else if 97 ≤ v ∧ v ≤ 122 then some (26 + (v - 97))
  else if 48 ≤ v ∧ v ≤ 57 then some (52 + (v - 48))
  else if v = 43 then some 62
  else if v = 47 then some 63
  else none

/-- Go `base64.StdEncoding.EncodeToString`: big-endian packing of bytes into
6-bit groups, final quantum padded with zero bits and `=` characters. -/
def b64EncodeBytes : List Nat → List Char
  | b1 :: b2 :: b3 :: rest =>
      encChar (b1 / 4) :: encChar (b1 % 4 * 16 + b2 / 16) ::
      encChar (b2 % 16 * 4 + b3 / 64) :: encChar (b3 % 64) :: b64EncodeBytes rest
  | [b1, b2] =>
      [encChar (b1 / 4), encChar (b1 % 4 * 16 + b2 / 16), encChar (b2 % 16 * 4), '=']
  | [b1] =>
      [encChar (b1 / 4), encChar (b1 % 4 * 16), '=', '=']
  | [] => []

/-- Go `base64.StdEncoding.DecodeString`: consumes quanta of four characters,
allowing one or two `=` pads only in the final quantum; `none` models a
`CorruptInputError`. -/
def b64DecodeChars : List Char → Option (List Nat)
  | [] => some []
  | c1 :: c2 :: c3 :: c4 :: rest =>
    match decCharVal c1, decCharVal c2 with
    | some v1, some v2 =>
      if c3 = '=' then
        if c4 = '=' ∧ rest = [] then some [v1 * 4 + v2 / 16] else none
      else
        match decCharVal c3 with
        | some v3 =>
          if c4 = '=' then
            if rest = [] then some [v1 * 4 + v2 / 16, v2 % 16 * 16 + v3 / 4] else none
          else
            match decCharVal c4 with
            | some v4 =>
              match b64DecodeChars rest with
              | some tl =>
                  some ((v1 * 4 + v2 / 16) :: (v2 % 16 * 16 + v3 / 4) :: (v3 % 4 * 64 + v4) :: tl)
              | none => none
            | none => none
        | none => none
    | _, _ => none
  | _ => none

theorem decCharVal_encChar : ∀ n < 64, decCharVal (encChar n) = some n := by decide

theorem encChar_ne_pad : ∀ n < 64, encChar n ≠ '=' := by decide

theorem b64_decode_encode :
    ∀ l : List Nat, (∀ b ∈ l, b < 256) → b64DecodeChars (b64EncodeBytes l) = some l
  | [], _ => by simp [b64EncodeBytes, b64DecodeChars]
  | [b1], h => by
      have h1 : b1 < 256 := h b1 (by simp)
      have e1 : b1 / 4 < 64 := by omega
      have e2 : b1 % 4 * 16 < 64 := by omega
      simp only [b64EncodeBytes, b64DecodeChars,
        decCharVal_encChar _ e1, decCharVal_encChar _ e2]
      simp only [if_true, and_self, if_pos, reduceIte, Option.some.injEq, List.cons.injEq,
        and_true]
      omega
  | [b1, b2], h => by
      have h1 : b1 < 256 := h b1 (by simp)
      have h2 : b2 < 256 := h b2 (by simp)
      have e1 : b1 / 4 < 64 := by omega
      have e2 : b1 % 4 * 16 + b2 / 16 < 64 := by omega
      have e3 : b2 % 16 * 4 < 64 := by omega
      simp only [b64EncodeBytes, b64DecodeChars,
        decCharVal_encChar _ e1, decCharVal_encChar _ e2, decCharVal_encChar _ e3,
        if_neg (encChar_ne_pad _ e3)]
      simp only [reduceIte, Option.some.injEq, List.cons.injEq, and_true]
      omega
  | b1 :: b2 :: b3 :: r1 :: rest, h => by
      have h1 : b1 < 256 := h b1 (by simp)
      have h2 : b2 < 256 := h b2 (by simp)
      have h3 : b3 < 256 := h b3 (by simp)
      have e1 : b1 / 4 < 64 := by omega
      have e2 : b1 % 4 * 16 + b2 / 16 < 64 := by omega
      have e3 : b2 % 16 * 4 + b3 / 64 < 64 := by omega
      have e4 : b3 % 64 < 64 := by omega
      have ih : b64DecodeChars (b64EncodeBytes (r1 :: rest)) = some (r1 :: rest) :=
        b64_decode_encode (r1 :: rest) (fun b hb => h b (by simp at hb ⊢; tauto))
      simp only [b64EncodeBytes, b64DecodeChars,
        decCharVal_encChar _ e1, decCharVal_encChar _ e2, decCharVal_encChar _ e3,
        decCharVal_encChar _ e4, if_neg (encChar_ne_pad _ e3), if_neg (encChar_ne_pad _ e4), ih]
      simp only [Option.some.injEq, List.cons.injEq, and_true, true_and]
      omega
  | [b1, b2, b3], h => by
      have h1 : b1 < 256 := h b1 (by simp)
      have h2 : b2 < 256 := h b2 (by simp)
      have h3 : b3 < 256 := h b3 (by simp)
      have e1 : b1 / 4 < 64 := by omega
      have e2 : b1 % 4 * 16 + b2 / 16 < 64 := by omega
      have e3 : b2 % 16 * 4 + b3 / 64 < 64 := by omega
      have e4 : b3 % 64 < 64 := by omega
      simp only [b64EncodeBytes, b64DecodeChars,
        decCharVal_encChar _ e1, decCharVal_encChar _ e2, decCharVal_encChar _ e3,
        decCharVal_encChar _ e4, if_neg (encChar_ne_pad _ e3), if_neg (encChar_ne_pad _ e4)]
      simp only [Option.some.injEq, List.cons.injEq, and_true, true_and]
      omega

/-! ## JSON envelope for `data` messages (Go `encoding/json`)

`proxy.Message.Marshal` / `proxy.ParseMessage`
(`internal/proxy/protocol.go`) serialize the message envelope with
`json.Marshal` / `json.Unmarshal`.  All fields carry `omitempty`, so a `data`
message marshals to the two-field object with the `data` field dropped when
the payload string is empty.  The parser below models `json.Unmarshal`
restricted to the canonical output of `json.Marshal` for `data` messages. -/

def dquote : Char := Char.ofNat 34

def bslash : Char := Char.ofNat 92

def lbrace : Char := Char.ofNat 123

def rbrace : Char := Char.ofNat 125

/-- Lowercase hexadecimal digit, as written by Go's JSON encoder in
`\u00xx` escapes. -/
def hexDigit (n : Nat) : Char :=
  if n < 10 then Char.ofNat (48 + n) else Char.ofNat (87 + n)

/-- Go `encoding/json` string escaping for one character: `"` and `\` get a
backslash, newline / carriage return / tab use their short forms, other
control characters and (HTML-escaped by default) `<` `>` `&` become
`\u00xx`; every other character is emitted verbatim. -/
def jsonEscapeChar (c : Char) : List Char :=
  if c = dquote then [bslash, dquote]
  else if c = bslash then [bslash, bslash]
  else if c = Char.ofNat 10 then [bslash, 'n']
  else if c = Char.ofNat 13 then [bslash, 'r']
  else if c = Char.ofNat 9 then [bslash, 't']
  else if c.toNat < 32 ∨ c = '<' ∨ c = '>' ∨ c = '&' then
    [bslash, 'u', '0', '0', hexDigit (c.toNat / 16), hexDigit (c.toNat % 16)]
  else [c]

def jsonEscape (l : List Char) : List Char := (l.map jsonEscapeChar).flatten

/-- The canonical opening of a marshalled non-empty `data` message:
the object brace, `"type":"data"`, and the opening of the `data` field. -/
def dataMsgOpen : List Char :=
  [lbrace, dquote] ++ "type".toList ++ [dquote, ':', dquote] ++ "data".toList ++
    [dquote, ',', dquote] ++ "data".toList ++ [dquote, ':', dquote]

/-- The marshalled form of a `data` message with empty payload: `omitempty`
drops the `data` field entirely. -/
def dataMsgEmpty : List Char :=
  [lbrace, dquote] ++ "type".toList ++ [dquote, ':', dquote] ++ "data".toList ++
    [dquote, rbrace]

/-- Go `json.Marshal` of `proxy.Message` with `Type: "data"` and the given
payload string (all other fields zero and `omitempty`-dropped). -/
def marshalDataMessage (payload : List Char) : List Char :=
  if payload = [] then dataMsgEmpty
  else dataMsgOpen ++ jsonEscape payload ++ [dquote, rbrace]

def hexVal (c : Char) : Option Nat :=
  let v := c.toNat
  if 48 ≤ v ∧ v ≤ 57 then some (v - 48)
  else if 97 ≤ v ∧ v ≤ 102 then some (v - 87)
  else if 65 ≤ v ∧ v ≤ 70 then some (v - 55)
  else none

/-- JSON string scanner: reads characters up to the closing unescaped quote,
resolving backslash escapes; returns the decoded string and the remaining
input. -/
def readJsonString : List Char → Option (List Char × List Char)
  | [] => none
  | c :: rest =>
    if c = dquote then some ([], rest)
    else if c = bslash then
      match rest with
      | [] => none
      | e :: rest2 =>
        if e = dquote then (readJsonString rest2).map (fun p => (dquote :: p.1, p.2))
        else if e = bslash then (readJsonString rest2).map (fun p => (bslash :: p.1, p.2))
        else if e = '/' then (readJsonString rest2).map (fun p => ('/' :: p.1, p.2))
        else if e = 'n' then (readJsonString rest2).map (fun p => (Char.ofNat 10 :: p.1, p.2))
        else if e = 'r' then (readJsonString rest2).map (fun p => (Char.ofNat 13 :: p.1, p.2))
        else if e = 't' then (readJsonString rest2).map (fun p => (Char.ofNat 9 :: p.1, p.2))
        else if e = 'b' then (readJsonString rest2).map (fun p => (Char.ofNat 8 :: p.1, p.2))
        else if e = 'f' then (readJsonString rest2).map (fun p => (Char.ofNat 12 :: p.1, p.2))
        else if e = 'u' then
          match rest2 with
          | h1 :: h2 :: h3 :: h4 :: rest3 =>
            match hexVal h1, hexVal h2, hexVal h3, hexVal h4 with
            | some a, some b, some c2, some d =>
              (readJsonString rest3).map
                (fun p => (Char.ofNat (a * 4096 + b * 256 + c2 * 16 + d) :: p.1, p.2))
            | _, _, _, _ => none
          | _ => none
        else none
    else (readJsonString rest).map (fun p => (c :: p.1, p.2))

/-- Go `json.Unmarshal` into `proxy.Message`, restricted to the canonical
marshalled form of a `data` message; yields the payload string. -/
def parseDataMessage (l : List Char) : Option (List Char) :=
  if l = dataMsgEmpty then some []
  else if l.take dataMsgOpen.length = dataMsgOpen then
    match readJsonString (l.drop dataMsgOpen.length) with
    | some (s, rest) => if rest = [rbrace] then some s else none
    | none => none
  else none

/-- The full relay-side wire encoding of raw terminal bytes:
base64, then JSON marshalling of the `data` envelope
(`internal/session/handler.go` lines 172-176). -/
def encodeDataWire (b : List Nat) : List Char := marshalDataMessage (b64EncodeBytes b)

/-- The receiving side: JSON parse of the envelope, then base64 decode of the
payload (`internal/session/handler.go` lines 198-212). -/
def decodeDataWire (l : List Char) : Option (List Nat) :=
  (parseDataMessage l).bind b64DecodeChars

theorem alphaSafe :
    ∀ n < 64, jsonEscapeChar (encChar n) = [encChar n] ∧
      encChar n ≠ dquote ∧ encChar n ≠ bslash := by decide

theorem padSafe :
    jsonEscapeChar '=' = ['='] ∧ ('=' : Char) ≠ dquote ∧ ('=' : Char) ≠ bslash := by decide

theorem b64_chars_safe :
    ∀ l : List Nat, (∀ b ∈ l, b < 256) →
      ∀ c ∈ b64EncodeBytes l, jsonEscapeChar c = [c] ∧ c ≠ dquote ∧ c ≠ bslash
  | [], _ => by simp [b64EncodeBytes]
  | [b1], h => by
      have h1 : b1 < 256 := h b1 (by simp)
      intro c hc
      simp only [b64EncodeBytes, List.mem_cons, List.not_mem_nil, or_false] at hc
      rcases hc with rfl | rfl | rfl | rfl
      · exact alphaSafe _ (by omega)
      · exact alphaSafe _ (by omega)
      · exact padSafe
      · exact padSafe
  | [b1, b2], h => by
      have h1 : b1 < 256 := h b1 (by simp)
      have h2 : b2 < 256 := h b2 (by simp)
      intro c hc
      simp only [b64EncodeBytes, List.mem_cons, List.not_mem_nil, or_false] at hc
      rcases hc with rfl | rfl | rfl | rfl
      · exact alphaSafe _ (by omega)
      · exact alphaSafe _ (by omega)
      · exact alphaSafe _ (by omega)
      · exact padSafe
  | b1 :: b2 :: b3 :: rest, h => by
      have h1 : b1 < 256 := h b1 (by simp)
      have h2 : b2 < 256 := h b2 (by simp)
      have h3 : b3 < 256 := h b3 (by simp)
      intro c hc
      simp only [b64EncodeBytes, List.mem_cons] at hc
      rcases hc with rfl | rfl | rfl | rfl | hc
      · exact alphaSafe _ (by omega)
      · exact alphaSafe _ (by omega)
      · exact alphaSafe _ (by omega)
      · exact alphaSafe _ (by omega)
      · exact b64_chars_safe rest (fun b hb => h b (by simp [hb])) c hc

theorem jsonEscape_id (l : List Char) (h : ∀ c ∈ l, jsonEscapeChar c = [c]) :
    jsonEscape l = l := by
  induction l with
  | nil => rfl
  | cons c t ih =>
      simp only [jsonEscape, List.map_cons, List.flatten_cons] at ih ⊢
      rw [h c (by simp), ih (fun x hx => h x (by simp [hx]))]
      rfl

theorem readJsonString_safe :
    ∀ s rest : List Char, (∀ c ∈ s, c ≠ dquote ∧ c ≠ bslash) →
      readJsonString (s ++ dquote :: rest) = some (s, rest) := by
  intro s
  induction s with
  | nil =>
      intro rest _
      rw [List.nil_append, readJsonString.eq_def]
      simp
  | cons c t ih =>
      intro rest h
      have hc := h c (by simp)
      rw [List.cons_append, readJsonString.eq_def]
      simp only [if_neg hc.1, if_neg hc.2, ih rest (fun x hx => h x (by simp [hx]))]
      rfl

theorem b64_ne_nil : ∀ l : List Nat, l ≠ [] → b64EncodeBytes l ≠ []
  | [], h => absurd rfl h
  | [_], _ => by simp [b64EncodeBytes]
  | [_, _], _ => by simp [b64EncodeBytes]
  | _ :: _ :: _ :: _, _ => by simp [b64EncodeBytes]

theorem parseDataMessage_marshal (s : List Char) (hs : s ≠ [])
    (hsafe : ∀ c ∈ s, jsonEscapeChar c = [c] ∧ c ≠ dquote ∧ c ≠ bslash) :
    parseDataMessage (marshalDataMessage s) = some s := by
  have hesc : jsonEscape s = s := jsonEscape_id s (fun c hc => (hsafe c hc).1)
  have hne : dataMsgOpen ++ jsonEscape s ++ [dquote, rbrace] ≠ dataMsgEmpty := by
    intro heq
    have := congrArg List.length heq
    simp [dataMsgOpen, dataMsgEmpty, hesc] at this
  rw [marshalDataMessage, if_neg hs, parseDataMessage, if_neg hne]
  have htake : (dataMsgOpen ++ jsonEscape s ++ [dquote, rbrace]).take dataMsgOpen.length
      = dataMsgOpen := by
    rw [List.append_assoc, List.take_left]
  have hdrop : (dataMsgOpen ++ jsonEscape s ++ [dquote, rbrace]).drop dataMsgOpen.length
      = s ++ dquote :: [rbrace] := by
    rw [List.append_assoc, List.drop_left, hesc]
  rw [if_pos htake, hdrop, readJsonString_safe s [rbrace] (fun c hc => (hsafe c hc).2)]
  rfl

/-- C1: round-trip of `data`-message payload bytes through base64 encoding,
JSON marshalling, JSON parsing and base64 decoding is the identity, for every
byte sequence including NUL, control bytes and arbitrary splits of multi-byte
sequences. -/
theorem c1_data_message_roundtrip (b : List Nat) (hb : ∀ x ∈ b, x < 256) :
    decodeDataWire (encodeDataWire b) = some b := by
  by_cases hnil : b = []
  · subst hnil
    simp [decodeDataWire, encodeDataWire, marshalDataMessage, b64EncodeBytes,
      parseDataMessage, b64DecodeChars]
  · have henc : b64EncodeBytes b ≠ [] := b64_ne_nil b hnil
    rw [decodeDataWire, encodeDataWire,
      parseDataMessage_marshal (b64EncodeBytes b) henc (b64_chars_safe b hb)]
    simpa using b64_decode_encode b hb

/-- C1 witness: concrete evaluation on a payload containing a NUL byte, a
high byte and a control byte. -/
theorem c1_witness :
    decodeDataWire (encodeDataWire [0, 255, 10, 130]) = some [0, 255, 10, 130] :=
  c1_data_message_roundtrip [0, 255, 10, 130] (by decide)

/-! ## Protocol messages and the session relay handler

`internal/proxy/protocol.go` defines the tagged message envelope shared by
the relay, the worker and the bridge (the `status` tag and `Message` field
are referenced by `internal/session/handler.go` and the worker).
`internal/session/handler.go` (`session.Handler`) authenticates, requires a
PTY, dials the worker, sends `init`, then pumps messages; the
WebSocket-to-SSH pump below is modelled over the list of frames received,
each frame abstracted to its `proxy.ParseMessage` result (`none` = parse
error). -/

inductive MessageType
  | init
  | data
  | resize
  | exit
  | ping
  | pong
  | error
  | status
deriving DecidableEq

/-- `proxy.Message`: one wire envelope; zero values model Go's
`omitempty` absent fields.  `errText` embeds the Go `Error` field. -/
structure RMsg where
  type : MessageType
  cols : Int := 0
  rows : Int := 0
  repo : String := ""
  data : List Char := []
  code : Int := 0
  message : String := ""
  timestamp : Int := 0
  errText : String := ""
deriving DecidableEq

def NewInitMessage (cols rows : Int) (repo : String) : RMsg :=
  { type := MessageType.init, cols := cols, rows := rows, repo := repo }

def NewDataMessage (d : List Char) : RMsg :=
  { type := MessageType.data, data := d }

def NewResizeMessage (cols rows : Int) : RMsg :=
  { type := MessageType.resize, cols := cols, rows := rows }

def NewExitMessage (code : Int) : RMsg :=
  { type := MessageType.exit, code := code }

def NewPingMessage (timestamp : Int) : RMsg :=
  { type := MessageType.ping, timestamp := timestamp }

/-- One write the relay performs on the client-facing SSH channel. -/
inductive SshWrite
  | bytes (bs : List Nat)
  | text (s : String)
deriving DecidableEq

/-- The relay's WebSocket-to-SSH pump (`handler.go` lines 184-232): for each
received frame, a parse error is logged and skipped; `data` is base64-decoded
(decode errors skipped) and written raw; `exit` stops the pump (closing
`done`); `error` and `status` surface text; `pong` is discarded; any other
tag has no case in the switch and is ignored. -/
def processFrames : List (Option RMsg) → List SshWrite
  | [] => []
  | none :: rest => processFrames rest
  | some m :: rest =>
    match m.type with
    | MessageType.data =>
      match b64DecodeChars m.data with
      | none => processFrames rest
      | some bs => SshWrite.bytes bs :: processFrames rest
    | MessageType.exit => []
    | MessageType.error => SshWrite.text ("Error: " ++ m.errText ++ "\r\n") :: processFrames rest
    | MessageType.status => SshWrite.text ("\r" ++ m.message ++ "\r\n") :: processFrames rest
    | _ => processFrames rest

/-- What one SSH session produced for the client: the ordered writes and the
exit code passed to `s.Exit`. -/
structure RelayResult where
  writes : List SshWrite
  exitCode : Nat
deriving DecidableEq

/-- `session.Handler` (`handler.go` lines 58-260) as a function of the
session's fate: missing fingerprint, missing PTY, WebSocket dial failure and
init-send failure each write a message and call `s.Exit(1)`; otherwise the
pumps run and after `wg.Wait()` the handler calls `s.Exit(0)`. -/
def relayRun (fingerprintOk isPty dialOk initSendOk : Bool)
    (frames : List (Option RMsg)) : RelayResult :=
  if ¬fingerprintOk then
    { writes := [SshWrite.text "Authentication failed\r\n"], exitCode := 1 }
  else if ¬isPty then
    { writes := [SshWrite.text "PTY required. Use: ssh -t ...\r\n"], exitCode := 1 }
  else if ¬dialOk then
    { writes := [SshWrite.text "Failed to connect to backend\r\n"], exitCode := 1 }
  else if ¬initSendOk then
    { writes := [SshWrite.text "Failed to initialize session\r\n"], exitCode := 1 }
  else
    { writes := processFrames frames, exitCode := 0 }

theorem processFrames_drop_malformed (pre post : List (Option RMsg)) :
    processFrames (pre ++ none :: post) = processFrames (pre ++ post) := by
  induction pre with
  | nil => simp [processFrames]
  | cons a pre ih =>
      rcases a with _ | m
      · simpa [processFrames] using ih
      · rcases m with ⟨t, cols, rows, repo, d, code, message, timestamp, errText⟩
        cases t <;> simp [processFrames, ih] <;>
          cases b64DecodeChars d <;> simp [ih]

/-! ## Pseudo-terminal bridge (pty-bridge `main.go`, HTTP + WebSocket variant)

State of the single global `*PTYSession` slot guarded by `sessionOnce`;
`goUint16` is Go's `uint16(x)` conversion of an `int` (two's-complement
truncation to the low 16 bits). -/

def goUint16 (n : Int) : Nat := (n % 65536).toNat

def outputBufferCap : Nat := 1024 * 1024

/-- `OutputBuffer.Write` (lines 54-62): append, then trim from the head when
the 1 MiB ceiling is exceeded. -/
def obWrite (buf data : List Nat) : List Nat :=
  let d := buf ++ data
  if outputBufferCap < d.length then d.drop (d.length - outputBufferCap) else d

/-- `OutputBuffer.Read` (lines 64-70): return the contents and reset the
buffer to empty. -/
def obRead (buf : List Nat) : List Nat × List Nat := (buf, [])

/-- The per-process state of the `PTYSession` global: process identity,
the pseudo-terminal device's window size as applied by `TIOCSWINSZ`
(already `uint16`-truncated), the polling output buffer, and running state
with exit code. -/
structure PTYSess where
  pid : Nat
  ptyCols : Nat
  ptyRows : Nat
  output : List Nat
  isRunning : Bool
  exitCode : Int
deriving DecidableEq

/-- The bridge process state: the `session` global, whether `sessionOnce`
has fired, how many terminal processes were ever spawned, and a fresh-pid
source. -/
structure BridgeState where
  sess : Option PTYSess
  onceDone : Bool
  spawnCount : Nat
  nextPid : Nat
deriving DecidableEq

def initialBridgeState : BridgeState :=
  { sess := none, onceDone := false, spawnCount := 0, nextPid := 1 }

/-- `setWinsize` (lines 637-653): `TIOCSWINSZ` with `uint16(cols)`,
`uint16(rows)`. -/
def setWinsizeSess (s : PTYSess) (cols rows : Int) : PTYSess :=
  { s with ptyCols := goUint16 cols, ptyRows := goUint16 rows }

/-- `initializeSession` (lines 321-389): spawn the terminal process on a new
pseudo-terminal sized `uint16(rows)` x `uint16(cols)`, install the global
session with a fresh output buffer. -/
def initializeSession (cols rows : Int) (st : BridgeState) : BridgeState :=
  { st with
    sess := some { pid := st.nextPid, ptyCols := goUint16 cols, ptyRows := goUint16 rows,
                   output := [], isRunning := true, exitCode := 0 },
    spawnCount := st.spawnCount + 1,
    nextPid := st.nextPid + 1 }

/-- One `init` request: its geometry and whether the spawn inside
`sessionOnce.Do` would fail (`pty.StartWithSize` error). -/
structure InitRequest where
  cols : Int
  rows : Int
  spawnFails : Bool
deriving DecidableEq

/-- `handleInit` (lines 279-319) and the identical init block of
`handleWebSocket` (lines 182-198): `sessionOnce.Do(initializeSession ...)` —
the once is consumed even when the spawn fails — then, if a session exists
and is running, the request's geometry is applied as a resize. -/
def handleInit (req : InitRequest) (st : BridgeState) : BridgeState :=
  let st1 :=
    if st.onceDone then st
    else if req.spawnFails then { st with onceDone := true }
    else { initializeSession req.cols req.rows st with onceDone := true }
  match st1.sess with
  | some s =>
      if s.isRunning then { st1 with sess := some (setWinsizeSess s req.cols req.rows) }
      else st1
  | none => st1

def runInits (reqs : List InitRequest) (st : BridgeState) : BridgeState :=
  reqs.foldl (fun s r => handleInit r s) st

/-- `handleRead` (lines 470-518): snapshot running state and exit code, drain
the output buffer, emit a `data` message when non-empty followed by an
`exit` message when the process has ended. -/
def handleRead (st : BridgeState) : List RMsg × BridgeState :=
  match st.sess with
  | none => ([{ type := MessageType.error, message := "Session not initialized" }], st)
  | some s =>
      let data := (obRead s.output).1
      let msgs :=
        (if 0 < data.length then [NewDataMessage (b64EncodeBytes data)] else []) ++
        (if s.isRunning then [] else [NewExitMessage s.exitCode])
      (msgs, { st with sess := some { s with output := (obRead s.output).2 } })

/-- `handleResize` (lines 603-626): rejected (HTTP 400) when no session is
initialized or it is not running; otherwise the geometry is applied to the
live pseudo-terminal via `setWinsize`. -/
def handleResize (cols rows : Int) (st : BridgeState) : Option BridgeState :=
  match st.sess with
  | none => none
  | some s =>
      if s.isRunning then some { st with sess := some (setWinsizeSess s cols rows) }
      else none

/-- The message loop of `handleWebSocket` (lines 207-240) over the received
frames, each abstracted to its `json.Unmarshal` result (`none` = malformed):
malformed frames are skipped; `data` frames are base64-decoded (decode
errors skipped) and the bytes written to the pseudo-terminal (collected in
the returned list); `resize` applies `setWinsize`; `ping` answers with a
`pong`; all other tags have no switch case and are ignored. -/
def wsProcess : BridgeState → List (Option RMsg) → BridgeState × List (List Nat)
  | st, [] => (st, [])
  | st, none :: rest => wsProcess st rest
  | st, some m :: rest =>
    match m.type with
    | MessageType.data =>
      match b64DecodeChars m.data with
      | none => wsProcess st rest
      | some bs =>
          let r := wsProcess st rest
          (r.1, bs :: r.2)
    | MessageType.resize =>
        wsProcess
          (match st.sess with
           | some s => { st with sess := some (setWinsizeSess s m.cols m.rows) }
           | none => st) rest
    | _ => wsProcess st rest

/-! ## Auth registry (internal/auth) -/

/-- `auth.Registry` (registry.go): the SQLite `keys` table keyed by
fingerprint, modelled as an association list fingerprint-to-marshalled-key,
newest first; the `fingerprint TEXT PRIMARY KEY` constraint means one row
per fingerprint. -/
abbrev Registry := List (String × String)

/-- `Registry.KeyExists`: `SELECT COUNT(*) ... WHERE fingerprint = ?` > 0. -/
def KeyExists (reg : Registry) (fp : String) : Bool :=
  reg.any (fun r => r.1 = fp)

/-- `Registry.RegisterKey`: `INSERT OR REPLACE INTO keys ...` keyed on the
fingerprint. -/
def RegisterKey (reg : Registry) (fp pubKey : String) : Registry :=
  (fp, pubKey) :: reg.filter (fun r => r.1 ≠ fp)

/-- `Registry.Count`: `SELECT COUNT(*) FROM keys`. -/
def regCount (reg : Registry) : Nat := reg.length

/-- One call of the `ssh.PublicKeyHandler` returned by
`NewPublicKeyHandler` (handler.go lines 12-43).  `existsFails` /
`registerFails` model SQLite errors on the two store accesses; the Go
handler logs such errors and returns `false`.  Result: the accept/deny
decision reported to the SSH layer, and the registry afterwards. -/
def publicKeyHandler (autoRegister : Bool) (reg : Registry) (fp pubKey : String)
    (existsFails registerFails : Bool) : Bool × Registry :=
  if existsFails then (false, reg)
  else if KeyExists reg fp then (true, reg)
  else if ¬autoRegister then (false, reg)
  else if registerFails then (false, reg)
  else (true, RegisterKey reg fp pubKey)

/-- `authN n reg`: the registry after `n` successive fault-free connections
from the same credential. -/
def authN (autoRegister : Bool) (fp pubKey : String) : Nat → Registry → Registry
  | 0, reg => reg
  | n + 1, reg => authN autoRegister fp pubKey n (publicKeyHandler autoRegister reg fp pubKey false false).2

/-! ## Claims C6, C7, C9: relay stream behaviour -/

theorem processFrames_congr_suffix (pre : List (Option RMsg)) (p1 p2 : List (Option RMsg))
    (h : processFrames p1 = processFrames p2) :
    processFrames (pre ++ p1) = processFrames (pre ++ p2) := by
  induction pre with
  | nil => simpa using h
  | cons a pre ih =>
      rcases a with _ | m
      · simpa [processFrames] using ih
      · rcases m with ⟨t, cols, rows, repo, d, code, message, timestamp, errText⟩
        cases t <;> simp [processFrames, ih] <;>
          cases b64DecodeChars d <;> simp [ih]

theorem wsProcess_drop_malformed :
    ∀ (pre : List (Option RMsg)) (st : BridgeState) (post : List (Option RMsg)),
      wsProcess st (pre ++ none :: post) = wsProcess st (pre ++ post) := by
  intro pre
  induction pre with
  | nil => intro st post; simp [wsProcess]
  | cons a pre ih =>
      intro st post
      rcases a with _ | m
      · simpa [wsProcess] using ih st post
      · rcases m with ⟨t, cols, rows, repo, d, code, message, timestamp, errText⟩
        cases t <;> simp [wsProcess, ih] <;>
          cases b64DecodeChars d <;> simp [ih]

/-- C6 counterexample: a downstream `exit` message with code 2 does not make
the relay end the client session with exit code 2 — `session.Handler` logs
the code, closes `done`, and after `wg.Wait()` calls `s.Exit(0)`. -/
theorem c6_counterexample :
    (relayRun true true true true [some (NewExitMessage 2)]).exitCode = 0 ∧
      (0 : Nat) ≠ 2 := by
  constructor
  · simp [relayRun]
  · decide

/-- C6 (amended): a downstream `exit` message terminates the client-facing
session — the pump stops and nothing after the `exit` frame is processed —
but the session always ends with exit code 0; the received code `c` is
logged, not propagated. -/
theorem c6_exit_terminates_session (c : Int) (pre rest frames : List (Option RMsg)) :
    processFrames (pre ++ some (NewExitMessage c) :: rest) =
      processFrames (pre ++ [some (NewExitMessage c)]) ∧
    processFrames (some (NewExitMessage c) :: rest) = [] ∧
    (relayRun true true true true frames).exitCode = 0 := by
  refine ⟨processFrames_congr_suffix pre _ _ ?_, ?_, ?_⟩
  · simp [processFrames, NewExitMessage]
  · simp [processFrames, NewExitMessage]
  · simp [relayRun]

/-- C7 counterexample: the exit code on WebSocket dial failure equals the
exit code on authentication failure (both are `s.Exit(1)`), so the claimed
distinctness fails. -/
theorem c7_counterexample :
    (relayRun true true false true []).exitCode =
      (relayRun false true true true []).exitCode := by
  simp [relayRun]

/-- C7 (amended): on dial failure the relay reports
"Failed to connect to backend" to the client and terminates with exit
code 1 — the same exit code as authentication failure, not a distinct one. -/
theorem c7_dial_failure_outcome (initSendOk : Bool) (frames : List (Option RMsg)) :
    relayRun true true false initSendOk frames =
      { writes := [SshWrite.text "Failed to connect to backend\r\n"], exitCode := 1 } ∧
    (relayRun false true true true []).exitCode = 1 := by
  constructor <;> simp [relayRun]

/-- C9: a malformed (unparseable) frame on either channel is dropped without
terminating the loop — processing of the surrounding frames is unchanged on
the relay's WebSocket-to-SSH pump and on the bridge's WebSocket loop — and a
well-formed `data` frame immediately after the malformed one is still
decoded and written. -/
theorem c9_malformed_dropped (pre post pre2 post2 : List (Option RMsg))
    (st : BridgeState) (bs : List Nat) (hb : ∀ b ∈ bs, b < 256) :
    processFrames (pre ++ none :: post) = processFrames (pre ++ post) ∧
    wsProcess st (pre2 ++ none :: post2) = wsProcess st (pre2 ++ post2) ∧
    processFrames (none :: some (NewDataMessage (b64EncodeBytes bs)) :: post) =
      SshWrite.bytes bs :: processFrames post := by
  refine ⟨processFrames_drop_malformed pre post, wsProcess_drop_malformed pre2 st post2, ?_⟩
  simp [processFrames, NewDataMessage, b64_decode_encode bs hb]

/-- C9 witness: concrete check that a malformed frame followed by a
well-formed `data` frame yields exactly the decoded bytes. -/
theorem c9_witness :
    processFrames [none, some (NewDataMessage (b64EncodeBytes [72, 0, 255]))] =
      [SshWrite.bytes [72, 0, 255]] :=
  (c9_malformed_dropped [] [] [] [] initialBridgeState [72, 0, 255] (by decide)).2.2

/-! ## Claim C2: at most one terminal process -/

/-- Reachability invariant of the bridge state under `init` requests. -/
def BridgeInv (st : BridgeState) : Prop :=
  (st.onceDone = false → st.spawnCount = 0) ∧ st.spawnCount ≤ 1

theorem handleInit_spawnCount (req : InitRequest) (st : BridgeState) :
    (handleInit req st).spawnCount =
      if st.onceDone ∨ req.spawnFails then st.spawnCount else st.spawnCount + 1 := by
  unfold handleInit
  by_cases hd : st.onceDone
  · simp only [hd, if_true, true_or]
    rcases hs : st.sess with _ | s
    · rfl
    · by_cases hr : s.isRunning <;> simp [hr]
  · by_cases hf : req.spawnFails
    · simp only [hd, hf, Bool.false_eq_true, if_false, if_true, or_true]
      rcases hs : st.sess with _ | s
      · simp [hs]
      · by_cases hr : s.isRunning <;> simp [hs, hr]
    · simp [hd, hf, initializeSession]

theorem handleInit_onceDone (req : InitRequest) (st : BridgeState) :
    (handleInit req st).onceDone = true := by
  unfold handleInit
  by_cases hd : st.onceDone
  · simp only [hd, if_true]
    rcases hs : st.sess with _ | s
    · exact hd
    · by_cases hr : s.isRunning <;> simp [hr, hd]
  · by_cases hf : req.spawnFails
    · simp only [hd, hf, Bool.false_eq_true, if_false, if_true]
      rcases hs : st.sess with _ | s
      · simp [hs]
      · by_cases hr : s.isRunning <;> simp [hs, hr]
    · simp [hd, hf, initializeSession]

theorem handleInit_preserves_inv (req : InitRequest) (st : BridgeState)
    (h : BridgeInv st) : BridgeInv (handleInit req st) := by
  rcases h with ⟨h0, h1⟩
  constructor
  · intro hfalse
    rw [handleInit_onceDone] at hfalse
    cases hfalse
  · rw [handleInit_spawnCount]
    by_cases hd : st.onceDone
    · simp [hd]; omega
    · have hc : st.spawnCount = 0 := h0 (by simpa using hd)
      by_cases hf : req.spawnFails <;> simp [hd, hf, hc]

theorem runInits_inv (reqs : List InitRequest) :
    ∀ st : BridgeState, BridgeInv st → BridgeInv (runInits reqs st) := by
  induction reqs with
  | nil => intro st h; exact h
  | cons r reqs ih =>
      intro st h
      exact ih (handleInit r st) (handleInit_preserves_inv r st h)

/-- C2: across any sequence of `init` requests (HTTP `/init` or the
WebSocket init block) at most one terminal process is ever spawned, and an
`init` against an already-running process changes nothing but the
pseudo-terminal geometry, which is set to that call's (uint16-truncated)
values — in particular the process identity is unchanged. -/
theorem c2_single_process (reqs : List InitRequest) (req : InitRequest)
    (st : BridgeState) (s : PTYSess)
    (honce : st.onceDone = true) (hs : st.sess = some s) (hr : s.isRunning = true) :
    (runInits reqs initialBridgeState).spawnCount ≤ 1 ∧
    handleInit req st =
      { st with sess := some { s with ptyCols := goUint16 req.cols,
                                      ptyRows := goUint16 req.rows } } := by
  constructor
  · exact (runInits_inv reqs initialBridgeState ⟨fun _ => rfl, Nat.zero_le 1⟩).2
  · unfold handleInit
    simp [honce, hs, hr, setWinsizeSess]

/-- C2 witness: after a first successful `init`, a second `init` with new
geometry resizes but does not spawn: process identity (pid) is unchanged. -/
theorem c2_witness :
    (runInits [⟨80, 24, false⟩, ⟨120, 40, false⟩] initialBridgeState).spawnCount ≤ 1 ∧
    handleInit ⟨120, 40, false⟩
        { sess := some { pid := 1, ptyCols := 80, ptyRows := 24, output := [],
                         isRunning := true, exitCode := 0 },
          onceDone := true, spawnCount := 1, nextPid := 2 } =
      { sess := some { pid := 1, ptyCols := 120, ptyRows := 40, output := [],
                       isRunning := true, exitCode := 0 },
        onceDone := true, spawnCount := 1, nextPid := 2 } := by
  have h := c2_single_process [⟨80, 24, false⟩, ⟨120, 40, false⟩] ⟨120, 40, false⟩
    { sess := some { pid := 1, ptyCols := 80, ptyRows := 24, output := [],
                     isRunning := true, exitCode := 0 },
      onceDone := true, spawnCount := 1, nextPid := 2 }
    { pid := 1, ptyCols := 80, ptyRows := 24, output := [], isRunning := true, exitCode := 0 }
    rfl rfl rfl
  refine ⟨h.1, ?_⟩
  rw [h.2]
  simp [goUint16]

/-! ## Claims C3, C8: authentication and the registry -/

theorem filter_of_unknown (reg : Registry) (fp : String) (h : KeyExists reg fp = false) :
    reg.filter (fun r => r.1 ≠ fp) = reg := by
  rw [List.filter_eq_self]
  intro a ha
  simp only [KeyExists, List.any_eq_false] at h
  simpa using h a ha

theorem keyExists_registerKey (reg : Registry) (fp pubKey : String) :
    KeyExists (RegisterKey reg fp pubKey) fp = true := by
  simp [KeyExists, RegisterKey]

theorem authN_stable (fp pubKey : String) (reg2 : Registry)
    (h : KeyExists reg2 fp = true) : ∀ n, authN true fp pubKey n reg2 = reg2 := by
  intro n
  induction n with
  | zero => rfl
  | succ n ih =>
      rw [authN]
      simp only [publicKeyHandler, h, Bool.false_eq_true, if_false, if_true]
      exact ih

/-- C3: for a fingerprint not in the registry, authentication with
auto-registration disabled is denied without any registry mutation; with
auto-registration enabled the first connection is accepted and inserts
exactly one row, registration is an idempotent insert-or-replace, and across
N ≥ 1 fault-free connections from the same credential the row count
increases by exactly one. -/
theorem c3_auth_registration (reg : Registry) (fp pubKey : String)
    (h : KeyExists reg fp = false) :
    publicKeyHandler false reg fp pubKey false false = (false, reg) ∧
    publicKeyHandler true reg fp pubKey false false = (true, RegisterKey reg fp pubKey) ∧
    regCount (RegisterKey reg fp pubKey) = regCount reg + 1 ∧
    RegisterKey (RegisterKey reg fp pubKey) fp pubKey = RegisterKey reg fp pubKey ∧
    ∀ n : Nat, regCount (authN true fp pubKey (n + 1) reg) = regCount reg + 1 := by
  refine ⟨?_, ?_, ?_, ?_, ?_⟩
  · simp [publicKeyHandler, h]
  · simp [publicKeyHandler, h]
  · rw [RegisterKey, filter_of_unknown reg fp h]
    simp [regCount]
  · simp only [RegisterKey, List.filter_cons]
    simp [List.filter_filter]
  · intro n
    rw [authN]
    simp only [publicKeyHandler, h, Bool.false_eq_true, if_false, if_true, not_true,
      Bool.not_eq_true, ite_false, ite_true]
    rw [authN_stable fp pubKey (RegisterKey reg fp pubKey) (keyExists_registerKey reg fp pubKey) n]
    rw [RegisterKey, filter_of_unknown reg fp h]
    simp [regCount]

/-- C3 witness: from an empty registry, rejection when auto-registration is
off leaves it empty; five successive connections with auto-registration on
leave exactly one row. -/
theorem c3_witness :
    publicKeyHandler false [] "SHA256:abc" "pk" false false = (false, []) ∧
    regCount (authN true "SHA256:abc" "pk" 5 []) = 1 := by
  have h := c3_auth_registration [] "SHA256:abc" "pk" rfl
  exact ⟨h.1, by simpa [regCount] using h.2.2.2.2 4⟩

/-- C8 counterexample: a storage failure while checking the key produces
exactly the same observable outcome (deny, registry untouched) as an unknown
credential with auto-registration disabled — there is no distinct
authentication-indeterminate outcome in the code, the handler just returns
`false`. -/
theorem c8_counterexample :
    publicKeyHandler true [] "SHA256:abc" "pk" true false =
      publicKeyHandler false [] "SHA256:abc" "pk" false false := by
  simp [publicKeyHandler, KeyExists]

/-- C8 (amended): on every authentication attempt during which the registry
read fails — whether the credential is registered or unknown — the handler
denies authentication (`false`) and leaves the registry unchanged, so a
legitimate owner is locked out on a transient storage fault; a write
failure during auto-registration (reachable only for an unknown credential)
yields the same denial; and on a read fault the outcome coincides exactly
with the outcome an unknown, rejected credential receives — there is no
distinguished authentication-indeterminate outcome. -/
theorem c8_storage_failure_denies (autoRegister : Bool) (reg : Registry)
    (fp pubKey : String) (registerFails : Bool) :
    publicKeyHandler autoRegister reg fp pubKey true registerFails = (false, reg) ∧
    (KeyExists reg fp = false →
      publicKeyHandler true reg fp pubKey false true = (false, reg) ∧
      publicKeyHandler autoRegister reg fp pubKey true registerFails =
        publicKeyHandler false reg fp pubKey false false) := by
  refine ⟨by simp [publicKeyHandler], fun h => ⟨?_, ?_⟩⟩ <;> simp [publicKeyHandler, h]

/-- C8 witness: a credential that IS registered is denied on a read fault
(the lockout case the spec warns about), and for an unknown credential the
storage-fault outcome coincides with the plain rejection outcome. -/
theorem c8_witness :
    publicKeyHandler true [("SHA256:abc", "pk")] "SHA256:abc" "pk" true false =
      (false, [("SHA256:abc", "pk")]) ∧
    publicKeyHandler true [("SHA256:other", "k0")] "SHA256:abc" "pk" false true =
      (false, [("SHA256:other", "k0")]) ∧
    publicKeyHandler true [("SHA256:other", "k0")] "SHA256:abc" "pk" true false =
      publicKeyHandler false [("SHA256:other", "k0")] "SHA256:abc" "pk" false false :=
  ⟨(c8_storage_failure_denies true [("SHA256:abc", "pk")] "SHA256:abc" "pk" false).1,
   ((c8_storage_failure_denies true [("SHA256:other", "k0")] "SHA256:abc" "pk" false).2
      (by decide)).1,
   ((c8_storage_failure_denies true [("SHA256:other", "k0")] "SHA256:abc" "pk" false).2
      (by decide)).2⟩

/-! ## Claim C10: geometry truncation modulo 2^16 -/

/-- C10: any integer geometry in an `init` or `resize` request is applied to
the pseudo-terminal device reduced modulo 2^16 (Go's `uint16` conversion):
values of 65536 or more wrap, negative values become large positive values,
and no value is rejected or replaced by a default. -/
theorem c10_geometry_truncation (cols rows : Int) (st : BridgeState) (s : PTYSess)
    (hs : st.sess = some s) (hr : s.isRunning = true) :
    handleResize cols rows st =
      some { st with sess := some { s with ptyCols := (cols % 65536).toNat,
                                           ptyRows := (rows % 65536).toNat } } ∧
    (initializeSession cols rows st).sess.map PTYSess.ptyCols =
      some ((cols % 65536).toNat) ∧
    (initializeSession cols rows st).sess.map PTYSess.ptyRows =
      some ((rows % 65536).toNat) := by
  refine ⟨?_, ?_, ?_⟩
  · simp [handleResize, hs, hr, setWinsizeSess, goUint16]
  · simp [initializeSession, goUint16]
  · simp [initializeSession, goUint16]

def sampleSess : PTYSess :=
  { pid := 1, ptyCols := 80, ptyRows := 24, output := [], isRunning := true, exitCode := 0 }

def sampleState : BridgeState :=
  { sess := some sampleSess, onceDone := true, spawnCount := 1, nextPid := 2 }

/-- C10 witness: cols = -1 wraps to 65535 and rows = 65537 wraps to 1 on a
running session; neither is rejected. -/
theorem c10_witness :
    handleResize (-1) 65537 sampleState =
      some { sampleState with
             sess := some { sampleSess with ptyCols := 65535, ptyRows := 1 } } := by
  have h := (c10_geometry_truncation (-1) 65537 sampleState sampleSess rfl rfl).1
  rw [h]
  norm_num
  decide

/-! ## Claim C4: bounded output buffer -/

/-- Stated from the spec's words: the most recent `cap`-byte suffix of a
byte stream (the whole stream when it is shorter than `cap`). -/
def lastBytes (cap : Nat) (l : List Nat) : List Nat := l.drop (l.length - cap)

theorem obWrite_eq_lastBytes (buf d : List Nat) :
    obWrite buf d = lastBytes outputBufferCap (buf ++ d) := by
  simp only [obWrite, lastBytes]
  by_cases hc : outputBufferCap < (buf ++ d).length
  · rw [if_pos hc]
  · rw [if_neg hc, Nat.sub_eq_zero_of_le (Nat.le_of_not_lt hc), List.drop_zero]

theorem lastBytes_absorb (cap : Nat) (a b : List Nat) :
    lastBytes cap (lastBytes cap a ++ b) = lastBytes cap (a ++ b) := by
  unfold lastBytes
  rw [List.drop_append_eq_append_drop, List.drop_append_eq_append_drop, List.drop_drop]
  have e1 : a.length - cap + ((a.drop (a.length - cap) ++ b).length - cap)
      = (a ++ b).length - cap := by
    simp only [List.length_append, List.length_drop]
    omega
  have e2 : (a.drop (a.length - cap) ++ b).length - cap - (a.drop (a.length - cap)).length
      = (a ++ b).length - cap - a.length := by
    simp only [List.length_append, List.length_drop]
    omega
  rw [e1, e2]

theorem foldl_obWrite (ws : List (List Nat)) :
    ∀ b : List Nat, ws.foldl obWrite (lastBytes outputBufferCap b) =
      lastBytes outputBufferCap (b ++ ws.flatten) := by
  induction ws with
  | nil =>
      intro b
      rw [List.foldl_nil, List.flatten_nil, List.append_nil]
  | cons w ws ih =>
      intro b
      rw [List.foldl_cons, obWrite_eq_lastBytes, lastBytes_absorb, ih (b ++ w),
        List.flatten_cons, List.append_assoc]

/-- C4: after any sequence of `OutputBuffer.Write` calls starting from an
empty (freshly drained) buffer, the buffer holds at most the 1 MiB ceiling
and its content is exactly the most recent ceiling-sized suffix of the
concatenation of everything written — older bytes are dropped from the
head. -/
theorem c4_output_buffer_bound (ws : List (List Nat)) :
    (ws.foldl obWrite []).length ≤ outputBufferCap ∧
    ws.foldl obWrite [] = lastBytes outputBufferCap ws.flatten := by
  have h : ws.foldl obWrite [] = lastBytes outputBufferCap ws.flatten := by
    have h0 : lastBytes outputBufferCap [] = [] := rfl
    have := foldl_obWrite ws []
    rw [h0] at this
    simpa using this
  refine ⟨?_, h⟩
  rw [h]
  unfold lastBytes
  rw [List.length_drop]
  omega

/-! ## Claim C5: drain-on-read -/

/-- The concatenation of the decoded payload bytes of all `data` messages in
a bridge reply. -/
def dataBytesOf (msgs : List RMsg) : List Nat :=
  (msgs.filterMap (fun m =>
    match m.type with
    | MessageType.data => b64DecodeChars m.data
    | _ => none)).flatten

/-- C5: a buffered-poll read returns exactly the bytes accumulated since the
previous drain — all of them in one `data` message at the head when
non-empty, followed by an `exit` message with the exit code when the process
has ended — and empties the buffer, so an immediately following read with no
intervening writes returns no data. -/
theorem c5_read_drains (st : BridgeState) (s : PTYSess) (hs : st.sess = some s)
    (hb : ∀ b ∈ s.output, b < 256) :
    dataBytesOf (handleRead st).1 = s.output ∧
    (s.output ≠ [] →
      (handleRead st).1.head? = some (NewDataMessage (b64EncodeBytes s.output))) ∧
    (handleRead st).2.sess = some { s with output := [] } ∧
    (s.isRunning = false →
      (handleRead st).1.getLast? = some (NewExitMessage s.exitCode)) ∧
    dataBytesOf (handleRead (handleRead st).2).1 = [] := by
  have hdec := b64_decode_encode s.output hb
  obtain ⟨pid, pc, pr, out, run, ec⟩ := s
  simp only at hdec
  cases run <;> rcases out with _ | ⟨x, xs⟩ <;>
    simp [handleRead, hs, obRead, dataBytesOf, NewDataMessage, NewExitMessage, hdec]

def readSampleSess : PTYSess :=
  { pid := 1, ptyCols := 80, ptyRows := 24, output := [104, 105], isRunning := false,
    exitCode := 3 }

def readSampleState : BridgeState :=
  { sess := some readSampleSess, onceDone := true, spawnCount := 1, nextPid := 2 }

/-- C5 witness: reading a two-byte buffer of an exited process returns those
bytes and the exit message, drains the buffer, and a second read returns no
data. -/
theorem c5_witness :
    dataBytesOf (handleRead readSampleState).1 = readSampleSess.output ∧
    (readSampleSess.output ≠ [] →
      (handleRead readSampleState).1.head? =
        some (NewDataMessage (b64EncodeBytes readSampleSess.output))) ∧
    (handleRead readSampleState).2.sess = some { readSampleSess with output := [] } ∧
    (readSampleSess.isRunning = false →
      (handleRead readSampleState).1.getLast? =
        some (NewExitMessage readSampleSess.exitCode)) ∧
    dataBytesOf (handleRead (handleRead readSampleState).2).1 = [] :=
  c5_read_drains readSampleState readSampleSess rfl (by decide)
